import Mathlib

/-!
Verification development for the `life-3d` repository (a 3D Game of Life in
Rust).  The simulation core lives in `src/life-3d/src/game.rs` (cells, grid,
neighbour counting, generation stepping, cursor, instance emission) and the
per-frame tick scheduling lives in `src/life-3d/src/main.rs`.  Every
definition below is a shallow embedding of the corresponding Rust item,
translated directly from the source:

* Rust `enum Cell` becomes `Cell`;
* the grid `Vec<[[Cell; ARENA_SIZE]; ARENA_SIZE]>` indexed as
  `cells[y][x][z]` becomes a total function `Nat → Nat → Nat → Cell`
  applied in the same `y x z` order (the real array is total on
  `[0, ARENA_SIZE)³` and panics outside; the claims below only ever
  evaluate it in range, which the safety theorem for `clamp_coords`
  justifies);
* `i32` values become `Int`, `u32`/`usize` values become `Nat`, with the
  Rust casts made explicit (`as u32` is reduction modulo `2^32`,
  `try_into().unwrap()` is an `Option` whose `none` models the panic);
* the `f64` tick accumulator becomes `ℚ`: the scheduler only adds,
  compares against the constant `0.25`, and resets to the constant `0`,
  and for the concrete values appearing in the claims the `f64` and exact
  computations take the same branches.
-/

namespace Life3D

/-- Rust `enum Cell { Alive, Dead }` from game.rs. -/
inductive Cell where
  | Alive : Cell
  | Dead : Cell
deriving DecidableEq, Repr

/-- Embeds `Cell::is_alive` from game.rs. -/
def Cell.is_alive (c : Cell) : Bool :=
  match c with
  | Cell.Alive => true
  | Cell.Dead => false

/-- Embeds `Cell::is_dead` from game.rs. -/
def Cell.is_dead (c : Cell) : Bool := !c.is_alive

/-- Embeds `pub const ARENA_SIZE: usize = 128` from game.rs. -/
def ARENA_SIZE : Nat := 128

/-- The grid of `GameOfLife`, modelling
`cells: Vec<[[Cell; ARENA_SIZE]; ARENA_SIZE]>` as a total function taking
the indices in the same order `cells[y][x][z]`. -/
structure GameOfLife where
  cells : Nat → Nat → Nat → Cell

/-- Embeds `GameOfLife::new`: every cell starts `Dead`. -/
def GameOfLife.new : GameOfLife := ⟨fun _ _ _ => Cell.Dead⟩

/-- Embeds `GameOfLife::cell`: `self.cells()[y][x][z]`. -/
def GameOfLife.cell (g : GameOfLife) (x y z : Nat) : Cell := g.cells y x z

/-- Embeds `GameOfLife::set_cell`: `self.cells_mut()[y][x][z] = cell`. -/
def GameOfLife.set_cell (g : GameOfLife) (x y z : Nat) (c : Cell) : GameOfLife :=
  ⟨fun y2 x2 z2 => if y2 = y ∧ x2 = x ∧ z2 = z then c else g.cells y2 x2 z2⟩

/-- Rust `i32 -> usize` conversion `try_into().unwrap()`: `none` models the
panic on a negative operand. -/
def try_into_usize (x : Int) : Option Nat :=
  if x < 0 then none else some x.toNat

/-- Embeds `GameOfLife::clamp_coords` from game.rs, with the
`try_into().unwrap()` calls kept fallible (`none` = panic):
`arena_max_index = ARENA_SIZE - 1`; if `x < 0` return
`arena_max_index + x`, else if `x > arena_max_index` return
`x - arena_max_index`, else `x`. -/
def clamp_coords (x : Int) : Option Nat :=
  if x < 0 then try_into_usize (((ARENA_SIZE : Int) - 1) + x)
  else if x > (ARENA_SIZE : Int) - 1 then try_into_usize (x - ((ARENA_SIZE : Int) - 1))
  else try_into_usize x

/-- The value `clamp_coords` produces after the `unwrap` (its call sites in
`living_neighbours` always get `some`, as the safety theorem shows). -/
def clamp_coordsD (x : Int) : Nat := (clamp_coords x).getD 0

/-- The offset range `-1..=1` iterated by `living_neighbours`. -/
def offset_range : List Int := [-1, 0, 1]

/-- Embeds `GameOfLife::living_neighbours` from game.rs: iterate `y_offset`,
`x_offset`, `z_offset` over `-1..=1`, skip the all-zero combination,
normalize each neighbour coordinate with `clamp_coords`, and count the
neighbours whose cell `is_alive`. -/
def GameOfLife.living_neighbours (g : GameOfLife) (cell_x cell_y cell_z : Nat) : Nat :=
  offset_range.foldl (fun acc y_offset =>
    offset_range.foldl (fun acc x_offset =>
      offset_range.foldl (fun acc z_offset =>
        if y_offset = 0 ∧ x_offset = 0 ∧ z_offset = 0 then acc
        else
          let neighbour_x := clamp_coordsD ((cell_x : Int) + x_offset)
          let neighbour_y := clamp_coordsD ((cell_y : Int) + y_offset)
          let neighbour_z := clamp_coordsD ((cell_z : Int) + z_offset)
          if (g.cell neighbour_x neighbour_y neighbour_z).is_alive then acc + 1 else acc)
        acc) acc) 0

/-- The branch structure of the per-cell body of `GameOfLife::update_game`
in game.rs: `some` is an explicit assignment to `new_cells[y][x][z]`,
`none` means no branch assigns and the cell keeps the fresh buffer's
default `Dead` (the `Alive`/`live_neighbours == 4` fall-through). -/
def rule_assignment (cell : Cell) (live_neighbours : Nat) : Option Cell :=
  if cell.is_alive then
    if live_neighbours < 3 then some Cell.Dead
    else if live_neighbours = 3 ∨ live_neighbours = 5 then some Cell.Alive
    else if live_neighbours > 5 then some Cell.Dead
    else none
  else
    if live_neighbours = 5 then some Cell.Alive else some Cell.Dead

/-- Embeds `GameOfLife::update_game` from game.rs: allocate an all-`Dead` buffer,
write `rule_assignment` of the current cell and its `living_neighbours`
(both read from the current grid) into each `new_cells[y][x][z]`, then
replace the grid with the buffer. -/
def GameOfLife.update_game (g : GameOfLife) : GameOfLife :=
  ⟨fun y x z =>
    (rule_assignment (g.cell x y z) (g.living_neighbours x y z)).getD Cell.Dead⟩

/-- The update rule as the spec states it, written from the spec's table
(`Alive`: `<3 → Dead`, `=3 → Alive`, `=4 → Dead`, `=5 → Alive`,
`>5 → Dead`; `Dead`: `=5 → Alive`, otherwise `Dead`), to be compared with
the rule the code implements. -/
def next_rule_spec (current : Cell) (liveNeighbors : Nat) : Cell :=
  match current with
  | Cell.Alive =>
    if liveNeighbors < 3 then Cell.Dead
    else if liveNeighbors = 3 then Cell.Alive
    else if liveNeighbors = 4 then Cell.Dead
    else if liveNeighbors = 5 then Cell.Alive
    else Cell.Dead
  | Cell.Dead =>
    if liveNeighbors = 5 then Cell.Alive else Cell.Dead

/-- The cursor's coordinates (the `u32` fields of `Cursor` in game.rs; the
OpenGL shader-program handle carried alongside them plays no part in the
cursor's arithmetic or in the grid operations and is omitted). -/
structure Cursor where
  x : Nat
  y : Nat
  z : Nat
deriving DecidableEq, Repr

/-- Embeds `GameOfLife::flip_at_cursor` from game.rs: read the cell at the
cursor's coordinates and write the opposite state back at the same
coordinates. -/
def GameOfLife.flip_at_cursor (g : GameOfLife) (cursor : Cursor) : GameOfLife :=
  g.set_cell cursor.x cursor.y cursor.z
    (if (g.cell cursor.x cursor.y cursor.z).is_alive then Cell.Dead else Cell.Alive)

/-- C1 counterexample: the claim `clamp_coords (0 + -1) = N-1` and
`clamp_coords ((N-1) + 1) = 0` is false on the code: the low-edge branch
returns `arena_max_index + x = 127 + (-1) = 126`, not `127`, and the
high-edge branch returns `x - arena_max_index = 128 - 127 = 1`, not `0`. -/
theorem clamp_coords_boundary_claim_false :
    clamp_coords ((0 : Int) + (-1)) ≠ some (ARENA_SIZE - 1) ∧
      clamp_coords (((ARENA_SIZE : Int) - 1) + 1) ≠ some 0 := by
  decide

/-- C1 (amended): normalizing coordinate `0` with offset `-1` yields
`N - 2 = 126`, and normalizing coordinate `N - 1` with offset `+1` yields
`1`: the reflected coordinate is computed from `arena_max_index = N - 1`
rather than `N`, so the round-trip lands one cell inside the far edge. -/
theorem clamp_coords_boundary_roundtrip :
    clamp_coords ((0 : Int) + (-1)) = some (ARENA_SIZE - 2) ∧
      clamp_coords (((ARENA_SIZE : Int) - 1) + 1) = some 1 := by
  decide

/-- C9: on the grid with `Alive` cells set at `(3,4,3)`, `(3,4,4)` and
`(2,2,3)` (and all else `Dead`), `living_neighbours(3,3,3)` returns
exactly `3`, as the repository's own `neighbour_count_test` asserts. -/
theorem living_neighbours_test_grid :
    ((((GameOfLife.new.set_cell 3 4 3 Cell.Alive).set_cell 3 4 4
        Cell.Alive).set_cell 2 2 3 Cell.Alive).living_neighbours 3 3 3) = 3 := by
  decide

/-- C2: one `update_game` step computes, at every cell of every grid
state, exactly the pure function of the old cell state and its live
neighbour count given by the spec's rule table: `Alive` with fewer than 3
live neighbours dies, with exactly 3 or 5 survives, with exactly 4 dies by
falling through to the buffer's default `Dead`, with more than 5 dies;
`Dead` becomes `Alive` exactly at 5 live neighbours. -/
theorem update_game_is_next_rule (g : GameOfLife) (x y z : Nat) :
    (g.update_game).cell x y z =
      next_rule_spec (g.cell x y z) (g.living_neighbours x y z) := by
  show (rule_assignment (g.cell x y z) (g.living_neighbours x y z)).getD Cell.Dead = _
  generalize g.cell x y z = c
  generalize g.living_neighbours x y z = n
  cases c <;>
    simp only [rule_assignment, next_rule_spec, Cell.is_alive, if_true, if_false,
      Bool.false_eq_true] <;>
    split_ifs <;>
    simp_all

/-- In the all-`Dead` grid every cell's live-neighbour count is 0. -/
theorem living_neighbours_new (x y z : Nat) :
    GameOfLife.new.living_neighbours x y z = 0 := by
  simp [GameOfLife.living_neighbours, offset_range, GameOfLife.cell, GameOfLife.new,
    Cell.is_alive]

/-- C5: stepping the all-`Dead` grid with `update_game` leaves every cell
`Dead` — no spontaneous generation. -/
theorem update_game_all_dead (x y z : Nat) :
    (GameOfLife.new.update_game).cell x y z = Cell.Dead := by
  show (rule_assignment (GameOfLife.new.cell x y z)
      (GameOfLife.new.living_neighbours x y z)).getD Cell.Dead = Cell.Dead
  rw [living_neighbours_new]
  rfl

/-- C6: `flip_at_cursor` is self-inverse: for any grid and any in-range
cursor, flipping twice restores the cell at the cursor's coordinates, and
with it the whole grid. -/
theorem flip_at_cursor_involutive (g : GameOfLife) (c : Cursor)
    (hx : c.x < ARENA_SIZE) (hy : c.y < ARENA_SIZE) (hz : c.z < ARENA_SIZE) :
    ((g.flip_at_cursor c).flip_at_cursor c).cell c.x c.y c.z = g.cell c.x c.y c.z ∧
      (g.flip_at_cursor c).flip_at_cursor c = g := by
  have key : ∀ y2 x2 z2,
      ((g.flip_at_cursor c).flip_at_cursor c).cells y2 x2 z2 = g.cells y2 x2 z2 := by
    intro y2 x2 z2
    by_cases h : y2 = c.y ∧ x2 = c.x ∧ z2 = c.z
    · obtain ⟨h1, h2, h3⟩ := h
      subst h1; subst h2; subst h3
      simp only [GameOfLife.flip_at_cursor, GameOfLife.set_cell, GameOfLife.cell,
        and_self, if_true]
      have hc : g.cells c.y c.x c.z = Cell.Alive ∨ g.cells c.y c.x c.z = Cell.Dead := by
        cases g.cells c.y c.x c.z
        · exact Or.inl rfl
        · exact Or.inr rfl
      rcases hc with hc | hc <;> simp [hc, Cell.is_alive]
    · simp only [GameOfLife.flip_at_cursor, GameOfLife.set_cell, GameOfLife.cell,
        h, if_false]
  have hgrid : (g.flip_at_cursor c).flip_at_cursor c = g := by
    obtain ⟨f⟩ := g
    exact congrArg GameOfLife.mk
      (funext fun a => funext fun b => funext fun d => key a b d)
  exact ⟨by rw [hgrid], hgrid⟩

/-- C6 at a concrete input: the all-`Dead` grid and the centre cursor. -/
theorem flip_at_cursor_involutive_witness :
    (64 : Nat) < ARENA_SIZE ∧
      (((GameOfLife.new.flip_at_cursor ⟨64, 64, 64⟩).flip_at_cursor
          ⟨64, 64, 64⟩).cell 64 64 64 = GameOfLife.new.cell 64 64 64 ∧
        (GameOfLife.new.flip_at_cursor ⟨64, 64, 64⟩).flip_at_cursor ⟨64, 64, 64⟩ =
          GameOfLife.new) :=
  ⟨by decide,
    flip_at_cursor_involutive GameOfLife.new ⟨64, 64, 64⟩ (by decide) (by decide)
      (by decide)⟩

/-- The tick-scheduling state of the main loop in main.rs: the `f64`
accumulator `tick_progress` (modelled over `ℚ`, see the header) and the
`paused` flag.  `tick_speed` is passed separately, as the scheduling block
only reads it. -/
structure TickState where
  tick_progress : ℚ
  paused : Bool
deriving DecidableEq, Repr

/-- Embeds `let max_tick_progress = 0.25` from main.rs. -/
def max_tick_progress : ℚ := 1 / 4

/-- The per-frame tick-scheduling block of the main loop (main.rs): if
`tick_progress >= max_tick_progress`, reset the accumulator to `0` and
invoke `update_game` (the returned `Bool`); otherwise, if not paused,
accumulate `tick_speed as f64 * delta_time`.  The `random_cursor` branch
inside the `else` arm mutates only the cursor and the grid, never the
scheduler state, and is omitted. -/
def tick_frame (s : TickState) (tick_speed : Int) (delta_time : ℚ) : TickState × Bool :=
  if s.tick_progress ≥ max_tick_progress then
    ({ s with tick_progress := 0 }, true)
  else if ¬ s.paused then
    ({ s with tick_progress := s.tick_progress + (tick_speed : ℚ) * delta_time }, false)
  else
    (s, false)

/-- Iterating the per-frame tick block over a list of `delta_time` values,
returning the final scheduler state and how many times `update_game`
fired. -/
def run_frames (tick_speed : Int) : TickState → List ℚ → TickState × Nat
  | s, [] => (s, 0)
  | s, d :: ds =>
    let r := tick_frame s tick_speed d
    let rest := run_frames tick_speed r.1 ds
    (rest.1, (if r.2 then 1 else 0) + rest.2)

/-- While paused and not yet due, a frame changes nothing: the threshold
check fails and the accumulation branch is skipped. -/
theorem run_frames_paused_below (tick_speed : Int) (ds : List ℚ) (s : TickState)
    (hp : s.paused = true) (hlt : s.tick_progress < max_tick_progress) :
    run_frames tick_speed s ds = (s, 0) := by
  induction ds with
  | nil => rfl
  | cons d ds ih =>
    have hframe : tick_frame s tick_speed d = (s, false) := by
      rw [tick_frame, if_neg (not_le.mpr hlt), if_neg]
      simp [hp]
    simp only [run_frames, hframe, ih]
    rfl

/-- C3 counterexample: with `tick_speed = 1`, threshold `0.25`, starting
from progress `0` unpaused, the single frame with `delta_time = 0.3` fires
no generation step at all and leaves the accumulator at `0.3`: the
threshold check runs before accumulation, so the claimed step does not
fire within that frame. -/
theorem tick_single_frame_no_step :
    run_frames 1 ⟨0, false⟩ [3 / 10] = (⟨3 / 10, false⟩, 0) := by
  norm_num [run_frames, tick_frame, max_tick_progress]

/-- C3 (amended): with `tick_speed = 1`, threshold `0.25`, starting from
progress `0` unpaused, the frame with `delta_time = 0.3` fires nothing and
leaves progress at `0.3`; whatever frame comes next, its pre-accumulation
check then fires exactly one generation step and resets progress to
exactly `0` (not `0.05`): the excess beyond the threshold is discarded,
never carried over as fractional leftover or as additional steps. -/
theorem tick_excess_discarded (d : ℚ) :
    run_frames 1 ⟨0, false⟩ [3 / 10] = (⟨3 / 10, false⟩, 0) ∧
      run_frames 1 ⟨0, false⟩ [3 / 10, d] = (⟨0, false⟩, 1) := by
  constructor
  · norm_num [run_frames, tick_frame, max_tick_progress]
  · norm_num [run_frames, tick_frame, max_tick_progress]

/-- C4: on a paused frame, the accumulator never increases (whatever the
`delta_time`); a generation step fires on that frame if and only if the
accumulator had already reached the threshold before the frame (the check
runs before time accumulation); and once such a step has fired, no further
step can fire over any sequence of subsequent paused frames. -/
theorem tick_paused_frames (s : TickState) (tick_speed : Int) (d : ℚ) (ds : List ℚ)
    (hp : s.paused = true) :
    (tick_frame s tick_speed d).1.tick_progress ≤ s.tick_progress ∧
      ((tick_frame s tick_speed d).2 = true ↔ max_tick_progress ≤ s.tick_progress) ∧
      ((tick_frame s tick_speed d).2 = true →
        run_frames tick_speed (tick_frame s tick_speed d).1 ds =
          ((tick_frame s tick_speed d).1, 0)) := by
  by_cases hdue : s.tick_progress ≥ max_tick_progress
  · have hframe : tick_frame s tick_speed d = ({ s with tick_progress := 0 }, true) := by
      rw [tick_frame, if_pos hdue]
    refine ⟨?_, ?_, ?_⟩
    · rw [hframe]
      have : (0 : ℚ) < max_tick_progress := by norm_num [max_tick_progress]
      exact le_trans (le_of_lt this) hdue
    · rw [hframe]
      simpa using hdue
    · intro _
      rw [hframe]
      exact run_frames_paused_below tick_speed ds _ hp
        (by norm_num [max_tick_progress])
  · have hframe : tick_frame s tick_speed d = (s, false) := by
      rw [tick_frame, if_neg hdue, if_neg]
      simp [hp]
    refine ⟨?_, ?_, ?_⟩
    · rw [hframe]
    · rw [hframe]
      simpa using hdue
    · intro hfired
      rw [hframe] at hfired
      exact absurd hfired (by simp)

/-- C4 at a concrete input: a paused, already-due state steps once and
then stays put over further paused frames. -/
theorem tick_paused_frames_witness :
    (⟨1 / 2, true⟩ : TickState).paused = true ∧
      ((tick_frame ⟨1 / 2, true⟩ 1 1).1.tick_progress ≤
          (⟨1 / 2, true⟩ : TickState).tick_progress ∧
        ((tick_frame ⟨1 / 2, true⟩ 1 1).2 = true ↔
          max_tick_progress ≤ (⟨1 / 2, true⟩ : TickState).tick_progress) ∧
        ((tick_frame ⟨1 / 2, true⟩ 1 1).2 = true →
          run_frames 1 (tick_frame ⟨1 / 2, true⟩ 1 1).1 [1, 2] =
            ((tick_frame ⟨1 / 2, true⟩ 1 1).1, 0))) :=
  ⟨rfl, tick_paused_frames ⟨1 / 2, true⟩ 1 1 [1, 2] rfl⟩

/-- Rust `u32 -> i32` bit-cast (`self.x as i32`): values at or above
`2^31` reinterpret as negatives. -/
def u32_as_i32 (x : Nat) : Int :=
  if x < 2 ^ 31 then (x : Int) else (x : Int) - 2 ^ 32

/-- Rust `i32 -> u32` bit-cast (`... as u32`): reduction modulo `2^32`. -/
def i32_as_u32 (x : Int) : Nat := (x % 2 ^ 32).toNat

/-- Release-mode wrapping of `i32` addition back into
`[-2^31, 2^31)`. -/
def wrap_i32 (x : Int) : Int := (x + 2 ^ 31) % 2 ^ 32 - 2 ^ 31

/-- Embeds `Cursor::move_x` from game.rs:
`self.x = ((self.x as i32) + dx) as u32`. -/
def Cursor.move_x (c : Cursor) (dx : Int) : Cursor :=
  { c with x := i32_as_u32 (wrap_i32 (u32_as_i32 c.x + dx)) }

/-- Embeds `Cursor::move_y` from game.rs. -/
def Cursor.move_y (c : Cursor) (dy : Int) : Cursor :=
  { c with y := i32_as_u32 (wrap_i32 (u32_as_i32 c.y + dy)) }

/-- Embeds `Cursor::move_z` from game.rs. -/
def Cursor.move_z (c : Cursor) (dz : Int) : Cursor :=
  { c with z := i32_as_u32 (wrap_i32 (u32_as_i32 c.z + dz)) }

/-- Embeds `Cursor::new` from game.rs: the cursor starts at the arena centre. -/
def Cursor.new : Cursor := ⟨ARENA_SIZE / 2, ARENA_SIZE / 2, ARENA_SIZE / 2⟩

/-- The `as i32`/`+`/`as u32` chain of the cursor moves is exactly
addition modulo `2^32` on the `u32` coordinate. -/
theorem cast_chain_eq_add_mod (n : Nat) (d : Int) (h : n < 2 ^ 32) :
    i32_as_u32 (wrap_i32 (u32_as_i32 n + d)) = (((n : Int) + d) % 2 ^ 32).toNat := by
  unfold i32_as_u32 wrap_i32 u32_as_i32
  split_ifs with h1 <;> omega

/-- C8: each `move` command with offset `±1` updates exactly the chosen
axis, replacing it by the old value plus the offset reduced modulo `2^32`
(the `as i32`/`as u32` casts), with no clamping into `[0, N)` and no
change to the other two axes; in particular, moving off coordinate `0`
with `-1` or off `N - 1` with `+1` leaves the cursor outside `[0, N)`. -/
theorem cursor_move_semantics (c : Cursor) (d : Int)
    (hd : d = -1 ∨ d = 1)
    (hx : c.x < 2 ^ 32) (hy : c.y < 2 ^ 32) (hz : c.z < 2 ^ 32) :
    ((c.move_x d).x = (((c.x : Int) + d) % 2 ^ 32).toNat ∧
      (c.move_x d).y = c.y ∧ (c.move_x d).z = c.z) ∧
    ((c.move_y d).y = (((c.y : Int) + d) % 2 ^ 32).toNat ∧
      (c.move_y d).x = c.x ∧ (c.move_y d).z = c.z) ∧
    ((c.move_z d).z = (((c.z : Int) + d) % 2 ^ 32).toNat ∧
      (c.move_z d).x = c.x ∧ (c.move_z d).y = c.y) ∧
    (c.x = 0 → d = -1 → ¬ (c.move_x d).x < ARENA_SIZE) ∧
    (c.x = ARENA_SIZE - 1 → d = 1 → ¬ (c.move_x d).x < ARENA_SIZE) := by
  have kx := cast_chain_eq_add_mod c.x d hx
  have ky := cast_chain_eq_add_mod c.y d hy
  have kz := cast_chain_eq_add_mod c.z d hz
  refine ⟨⟨?_, rfl, rfl⟩, ⟨?_, rfl, rfl⟩, ⟨?_, rfl, rfl⟩, ?_, ?_⟩
  · exact kx
  · exact ky
  · exact kz
  · intro h0 hdm
    rw [Cursor.move_x]
    show ¬ i32_as_u32 (wrap_i32 (u32_as_i32 c.x + d)) < ARENA_SIZE
    rw [kx, h0, hdm, ARENA_SIZE]
    decide
  · intro h0 hdp
    rw [Cursor.move_x]
    show ¬ i32_as_u32 (wrap_i32 (u32_as_i32 c.x + d)) < ARENA_SIZE
    rw [kx, h0, hdp, ARENA_SIZE]
    decide

/-- C8 at a concrete input: the centre cursor moved by `+1` on each
axis. -/
theorem cursor_move_semantics_witness :
    ((1 : Int) = -1 ∨ (1 : Int) = 1) ∧ (64 : Nat) < 2 ^ 32 ∧
      (((Cursor.mk 64 64 64).move_x 1).x = ((((64 : Nat) : Int) + 1) % 2 ^ 32).toNat ∧
        ((Cursor.mk 64 64 64).move_x 1).y = 64 ∧ ((Cursor.mk 64 64 64).move_x 1).z = 64) :=
  ⟨Or.inr rfl, by decide,
    ((cursor_move_semantics ⟨64, 64, 64⟩ 1 (Or.inr rfl) (by decide) (by decide)
      (by decide)).1)⟩

/-- C10: for every in-range coordinate `c < N` and every offset
`o ∈ {-1, 0, 1}`, `clamp_coords (c + o)` succeeds (the
`try_into().unwrap()` never panics) and the produced index is again below
`N`; hence `living_neighbours` on an in-range cell — and `update_game`
over the whole grid — only ever reads the cells array in bounds. -/
theorem clamp_coords_in_range (c : Nat) (o : Int)
    (hc : c < ARENA_SIZE) (ho : o = -1 ∨ o = 0 ∨ o = 1) :
    (clamp_coords ((c : Int) + o)).isSome = true ∧
      clamp_coordsD ((c : Int) + o) < ARENA_SIZE := by
  rw [ARENA_SIZE] at hc
  rcases ho with rfl | rfl | rfl <;>
    simp only [clamp_coords, clamp_coordsD, try_into_usize, ARENA_SIZE] <;>
    split_ifs <;>
    first
      | (refine ⟨rfl, ?_⟩; simp only [Option.getD_some]; omega)
      | (exfalso; omega)

/-- C10 at a concrete input: coordinate `0` with offset `-1`. -/
theorem clamp_coords_in_range_witness :
    (0 : Nat) < ARENA_SIZE ∧ ((-1 : Int) = -1 ∨ (-1 : Int) = 0 ∨ (-1 : Int) = 1) ∧
      ((clamp_coords (((0 : Nat) : Int) + (-1))).isSome = true ∧
        clamp_coordsD (((0 : Nat) : Int) + (-1)) < ARENA_SIZE) :=
  ⟨by decide, Or.inl rfl,
    clamp_coords_in_range 0 (-1) (by decide) (Or.inl rfl)⟩

/-- Embeds `GameOfLife::to_real_coords` from game.rs over exact numbers:
`x * cell_size - (ARENA_SIZE / 2) * cell_size`. -/
def to_real_coords (x cell_size : ℚ) : ℚ :=
  x * cell_size - ((ARENA_SIZE / 2 : Nat) : ℚ) * cell_size

/-- The innermost loop of `GameOfLife::render` (game.rs): walk the
`z` row, keep the `Alive` cells, and for those not at the cursor's
coordinates record the grid coordinate handed to `to_real_coords` and
`Renderer::add_instance`. -/
def emit_row (g : GameOfLife) (cursor : Cursor) (y x : Nat) : List (Nat × Nat × Nat) :=
  ((List.range ARENA_SIZE).filter fun z => (g.cell x y z).is_alive).filterMap fun z =>
    if x ≠ cursor.x ∨ y ≠ cursor.y ∨ z ≠ cursor.z then some (x, y, z) else none

/-- The middle loop of `GameOfLife::render`: walk the rows of one
layer. -/
def emit_layer (g : GameOfLife) (cursor : Cursor) (y : Nat) : List (Nat × Nat × Nat) :=
  (List.range ARENA_SIZE).flatMap fun x => emit_row g cursor y x

/-- The full instance emission of `GameOfLife::render`: the previous
instance list is cleared (`remove_all_instances`), so the frame's output
is exactly this list, in layer/row/cell order. -/
def GameOfLife.render_coords (g : GameOfLife) (cursor : Cursor) : List (Nat × Nat × Nat) :=
  (List.range ARENA_SIZE).flatMap fun y => emit_layer g cursor y

/-- Shape of the emitted entries of one row. -/
theorem mem_emit_row (g : GameOfLife) (cursor : Cursor) (y x : Nat)
    (b : Nat × Nat × Nat) :
    b ∈ emit_row g cursor y x ↔
      ∃ z, z < ARENA_SIZE ∧ (g.cell x y z).is_alive = true ∧
        (x ≠ cursor.x ∨ y ≠ cursor.y ∨ z ≠ cursor.z) ∧ b = (x, y, z) := by
  constructor
  · intro hb
    simp only [emit_row, List.mem_filterMap, List.mem_filter, List.mem_range] at hb
    obtain ⟨z, ⟨hzlt, halive⟩, hsome⟩ := hb
    rw [Option.ite_none_right_eq_some] at hsome
    exact ⟨z, hzlt, halive, hsome.1, (Option.some.inj hsome.2).symm⟩
  · rintro ⟨z, hzlt, halive, hcond, rfl⟩
    simp only [emit_row, List.mem_filterMap, List.mem_filter, List.mem_range]
    exact ⟨z, ⟨hzlt, halive⟩, by rw [Option.ite_none_right_eq_some]; exact ⟨hcond, rfl⟩⟩

/-- Shape of the emitted entries of one layer. -/
theorem mem_emit_layer (g : GameOfLife) (cursor : Cursor) (y : Nat)
    (b : Nat × Nat × Nat) :
    b ∈ emit_layer g cursor y ↔
      ∃ x, x < ARENA_SIZE ∧ b ∈ emit_row g cursor y x := by
  simp only [emit_layer, List.mem_flatMap, List.mem_range]

/-- Membership in the emitted instance list. -/
theorem mem_render_coords (g : GameOfLife) (cursor : Cursor) (x y z : Nat) :
    (x, y, z) ∈ g.render_coords cursor ↔
      x < ARENA_SIZE ∧ y < ARENA_SIZE ∧ z < ARENA_SIZE ∧
        (g.cell x y z).is_alive = true ∧
        ¬(x = cursor.x ∧ y = cursor.y ∧ z = cursor.z) := by
  simp only [GameOfLife.render_coords, List.mem_flatMap, List.mem_range]
  constructor
  · rintro ⟨y1, hy1, hmem⟩
    rw [mem_emit_layer] at hmem
    obtain ⟨x1, hx1, hrow⟩ := hmem
    rw [mem_emit_row] at hrow
    obtain ⟨z1, hz1, halive, hcond, heq⟩ := hrow
    obtain ⟨rfl, rfl, rfl⟩ : x = x1 ∧ y = y1 ∧ z = z1 := by
      simpa [Prod.ext_iff] using heq
    refine ⟨hx1, hy1, hz1, halive, ?_⟩
    rintro ⟨rfl, rfl, rfl⟩
    rcases hcond with h | h | h <;> exact h rfl
  · rintro ⟨hx, hy, hz, halive, hnc⟩
    refine ⟨y, hy, ?_⟩
    rw [mem_emit_layer]
    refine ⟨x, hx, ?_⟩
    rw [mem_emit_row]
    refine ⟨z, hz, halive, ?_, rfl⟩
    by_contra hcon
    push_neg at hcon
    exact hnc ⟨hcon.1, hcon.2.1, hcon.2.2⟩

/-- One row emits no coordinate twice. -/
theorem nodup_emit_row (g : GameOfLife) (cursor : Cursor) (y x : Nat) :
    (emit_row g cursor y x).Nodup := by
  apply List.Nodup.filterMap
  · intro a a' b hb hb'
    rw [Option.mem_def, Option.ite_none_right_eq_some] at hb hb'
    have hpair : (x, y, a) = (x, y, a') :=
      Option.some.inj (hb.2.trans hb'.2.symm)
    have h3 : x = x ∧ y = y ∧ a = a' := by simpa [Prod.ext_iff] using hpair
    exact h3.2.2
  · exact (List.nodup_range _).filter _

/-- One layer emits no coordinate twice. -/
theorem nodup_emit_layer (g : GameOfLife) (cursor : Cursor) (y : Nat) :
    (emit_layer g cursor y).Nodup := by
  rw [emit_layer, List.nodup_flatMap]
  refine ⟨fun x _ => nodup_emit_row g cursor y x, ?_⟩
  refine (List.nodup_range _).imp ?_
  intro x1 x2 hne b hb1 hb2
  rw [mem_emit_row] at hb1 hb2
  obtain ⟨z1, _, _, _, rfl⟩ := hb1
  obtain ⟨z2, _, _, _, heq⟩ := hb2
  have h3 : x1 = x2 ∧ y = y ∧ z1 = z2 := by simpa [Prod.ext_iff] using heq
  exact hne h3.1

/-- The emitted instance list contains no coordinate twice. -/
theorem nodup_render_coords (g : GameOfLife) (cursor : Cursor) :
    (g.render_coords cursor).Nodup := by
  rw [GameOfLife.render_coords, List.nodup_flatMap]
  refine ⟨fun y _ => nodup_emit_layer g cursor y, ?_⟩
  refine (List.nodup_range _).imp ?_
  intro y1 y2 hne b hb1 hb2
  rw [mem_emit_layer] at hb1 hb2
  obtain ⟨x1, _, hr1⟩ := hb1
  obtain ⟨x2, _, hr2⟩ := hb2
  rw [mem_emit_row] at hr1 hr2
  obtain ⟨z1, _, _, _, rfl⟩ := hr1
  obtain ⟨z2, _, _, _, heq⟩ := hr2
  have h3 : x1 = x2 ∧ y1 = y2 ∧ z1 = z2 := by simpa [Prod.ext_iff] using heq
  exact hne h3.2.1

/-- A list without duplicates counts each of its members exactly once. -/
theorem count_eq_one_of_nodup_mem {α : Type} [BEq α] [LawfulBEq α] {a : α} :
    ∀ {l : List α}, l.Nodup → a ∈ l → List.count a l = 1 := by
  intro l
  induction l with
  | nil => intro _ h; cases h
  | cons b t ih =>
    intro hn hm
    rw [List.count_cons]
    rcases List.mem_cons.mp hm with rfl | hmt
    · rw [List.count_eq_zero_of_not_mem (List.nodup_cons.mp hn).1]
      simp
    · have hne : b ≠ a := by
        rintro rfl
        exact (List.nodup_cons.mp hn).1 hmt
      rw [ih (List.nodup_cons.mp hn).2 hmt]
      simp [hne]

/-- C7: in one frame, `render` emits exactly one instance for every
`Alive` cell whose coordinates are not all equal to the cursor's, emits
nothing for the cell at the cursor's coordinates even when it is `Alive`,
and never emits a `Dead` cell; and for a fixed positive cell size the
affine map `to_real_coords` sending a grid coordinate to its world-space
coordinate is injective, so distinct emitted cells yield distinct
world-space positions. -/
theorem render_emission (g : GameOfLife) (cursor : Cursor) (x y z : Nat)
    (hx : x < ARENA_SIZE) (hy : y < ARENA_SIZE) (hz : z < ARENA_SIZE) :
    (g.render_coords cursor).count (x, y, z) =
      (if (g.cell x y z).is_alive = true ∧
          ¬(x = cursor.x ∧ y = cursor.y ∧ z = cursor.z) then 1 else 0) ∧
      ∀ a b cs : ℚ, 0 < cs → to_real_coords a cs = to_real_coords b cs → a = b := by
  constructor
  · by_cases hcase : (g.cell x y z).is_alive = true ∧
        ¬(x = cursor.x ∧ y = cursor.y ∧ z = cursor.z)
    · rw [if_pos hcase]
      exact count_eq_one_of_nodup_mem (nodup_render_coords g cursor)
        ((mem_render_coords g cursor x y z).mpr ⟨hx, hy, hz, hcase.1, hcase.2⟩)
    · rw [if_neg hcase]
      apply List.count_eq_zero_of_not_mem
      intro hmem
      rw [mem_render_coords] at hmem
      exact hcase ⟨hmem.2.2.2.1, hmem.2.2.2.2⟩
  · intro a b cs hcs heq
    rw [to_real_coords, to_real_coords, sub_left_inj] at heq
    exact mul_right_cancel₀ (ne_of_gt hcs) heq

/-- C7 at a concrete input: a grid with one live cell away from the
cursor. -/
theorem render_emission_witness :
    (3 : Nat) < ARENA_SIZE ∧
      (((GameOfLife.new.set_cell 3 4 5 Cell.Alive).render_coords ⟨0, 0, 0⟩).count
          (3, 4, 5) =
        (if ((GameOfLife.new.set_cell 3 4 5 Cell.Alive).cell 3 4 5).is_alive = true ∧
            ¬((3 : Nat) = (Cursor.mk 0 0 0).x ∧ (4 : Nat) = (Cursor.mk 0 0 0).y ∧
              (5 : Nat) = (Cursor.mk 0 0 0).z) then 1 else 0) ∧
        ∀ a b cs : ℚ, 0 < cs → to_real_coords a cs = to_real_coords b cs → a = b) :=
  ⟨by decide,
    render_emission (GameOfLife.new.set_cell 3 4 5 Cell.Alive) ⟨0, 0, 0⟩ 3 4 5
      (by decide) (by decide) (by decide)⟩

end Life3D
